import Mathlib

/-!
Verification of the power-http-server HTTP request parser and connection
session (src/httpParser.ts, src/server.ts).

The model is a byte-level shallow embedding: a network buffer is a
`List Nat` of byte values.  The TypeScript code decodes the buffer with
UTF-8 before scanning for the header separator; on the byte values the
claims quantify over (ASCII header sections), that decoding is the
identity, and CR/LF bytes can never be produced by decoding a multi-byte
sequence, so locating `\r\n\r\n` on bytes agrees with locating it on the
decoded string.  JavaScript string/Buffer primitives (`split`, `trim`,
`toLowerCase`, `parseInt`, `Buffer.slice` with negative-index semantics,
object spread) are each embedded as an explicit function below.  The
`parse` function embeds the `Buffer` code path of
`HttpRequestParser.parse`, which is the path the server exercises.
-/

/-- Byte values of an ASCII string literal. -/
def strBytes (s : String) : List Nat := s.data.map Char.toNat

/-- The four-byte header/body separator CR LF CR LF. -/
def SEPB : List Nat := [13, 10, 13, 10]

/-- Whitespace bytes recognised by JavaScript `trim` / `parseInt` (ASCII range). -/
def jsWS (b : Nat) : Bool := b = 32 || b = 9 || b = 10 || b = 11 || b = 12 || b = 13

/-- JavaScript `String.prototype.trim` on bytes. -/
def jsTrim (l : List Nat) : List Nat :=
  ((l.dropWhile jsWS).reverse.dropWhile jsWS).reverse

/-- ASCII lowercasing of one byte, as done by `toLowerCase`. -/
def lowerByte (b : Nat) : Nat := if 65 ≤ b ∧ b ≤ 90 then b + 32 else b

/-- JavaScript `String.prototype.toLowerCase` on bytes (ASCII range). -/
def jsLower (l : List Nat) : List Nat := l.map lowerByte

/-- True iff the byte list contains neither CR (13) nor LF (10). -/
def crlfFree (l : List Nat) : Bool := l.all (fun b => b ≠ 13 && b ≠ 10)

/-- First index at which `p` occurs as a contiguous sublist of the argument,
mirroring JavaScript `indexOf` on strings/Buffers (`none` = `-1`). -/
def findSub (p : List Nat) : List Nat → Option Nat
  | [] => if p.isEmpty then some 0 else none
  | x :: t => if p.isPrefixOf (x :: t) then some 0 else (findSub p t).map (· + 1)

/-- Prepends a byte to the first group of a split result. -/
def consHead (x : Nat) : List (List Nat) → List (List Nat)
  | [] => [[x]]
  | h :: t => (x :: h) :: t

/-- JavaScript `split('\r\n')` on bytes: leftmost, non-overlapping. -/
def splitCRLF : List Nat → List (List Nat)
  | [] => [[]]
  | [x] => [[x]]
  | x :: y :: rest =>
    if x = 13 ∧ y = 10 then [] :: splitCRLF rest
    else consHead x (splitCRLF (y :: rest))

/-- JavaScript `split(c)` for a single-byte separator. -/
def splitByte (c : Nat) : List Nat → List (List Nat)
  | [] => [[]]
  | x :: rest =>
    if x = c then [] :: splitByte c rest
    else consHead x (splitByte c rest)

/-- JavaScript `Array.prototype.join(':')` on byte-list pieces. -/
def joinColon (ls : List (List Nat)) : List Nat := List.intercalate [58] ls

/-- Digit byte test for base-10 `parseInt`. -/
def isDigitB (b : Nat) : Bool := 48 ≤ b && b ≤ 57

/-- Numeric value of a digit-byte string (most significant first). -/
def digitsToNat (l : List Nat) : Nat := l.foldl (fun acc b => 10 * acc + (b - 48)) 0

/-- Maximal leading digit run of `parseInt`; empty run means NaN. -/
def jsDigits (l : List Nat) : Option Int :=
  let ds := l.takeWhile isDigitB
  if ds.isEmpty then none else some (digitsToNat ds)

/-- JavaScript `parseInt(s, 10)`: skip whitespace, optional sign, maximal
digit prefix; `none` models NaN. -/
def jsParseInt (l0 : List Nat) : Option Int :=
  match l0.dropWhile jsWS with
  | [] => none
  | x :: rest =>
    if x = 43 then jsDigits rest
    else if x = 45 then (jsDigits rest).map (fun n => -n)
    else jsDigits (x :: rest)

/-- Decimal digit bytes of `m`, computed with structural fuel. -/
def decDigitsGo : Nat → Nat → List Nat
  | 0, _ => []
  | fuel + 1, m =>
    if m < 10 then [48 + m] else decDigitsGo fuel (m / 10) ++ [48 + m % 10]

/-- Decimal rendering of a natural number as ASCII bytes, as produced by
JavaScript number-to-string conversion. -/
def decDigits (n : Nat) : List Nat := decDigitsGo (n + 1) n

/-- Node `Buffer.slice(start, end)`: negative indices count from the end,
both indices are clamped to `[0, length]`, empty when `end ≤ start`. -/
def bufSlice (buf : List Nat) (s e : Int) : List Nat :=
  let len : Int := buf.length
  let s' := if s < 0 then max (len + s) 0 else min s len
  let e' := if e < 0 then max (len + e) 0 else min e len
  (buf.drop s'.toNat).take (e' - s').toNat

/-- JavaScript object property write: updates the value in place when the
key already exists, otherwise appends the new property. -/
def setKey (m : List (List Nat × List Nat)) (k v : List Nat) : List (List Nat × List Nat) :=
  if m.any (fun q => q.1 == k) then m.map (fun q => if q.1 == k then (k, v) else q)
  else m ++ [(k, v)]

/-- JavaScript object spread `\x7b ...base, ...extra \x7d` over string-keyed maps. -/
def objAssign (base extra : List (List Nat × List Nat)) : List (List Nat × List Nat) :=
  extra.foldl (fun m q => setKey m q.1 q.2) base

/-- JavaScript object property read, `none` for a missing key. -/
def hdrGet (m : List (List Nat × List Nat)) (k : List Nat) : Option (List Nat) :=
  (m.find? (fun q => q.1 == k)).map (·.2)

/-- Error cases thrown by `HttpRequestParser.parse`, one constructor per
`throw` site in src/httpParser.ts. -/
inductive ParseErr where
  | noHeaders
  | noRequestLine
  | badRequestLine
  | unsupportedMethod (m : List Nat)
  | chunked
  | invalidContentLength
  | incompleteBody
deriving DecidableEq, Repr

/-- Message text of each thrown `Error`, as byte strings. -/
def errMessage : ParseErr → List Nat
  | .noHeaders => strBytes "Invalid HTTP Request: No headers found"
  | .noRequestLine => strBytes "Invalid request: No request line"
  | .badRequestLine => strBytes "Invalid request line"
  | .unsupportedMethod m => strBytes "Unsupported HTTP method: " ++ m
  | .chunked => strBytes "Chunked encoding not supported"
  | .invalidContentLength => strBytes "Invalid Content-Length header"
  | .incompleteBody => strBytes "Incomplete body based on Content-Length"

/-- The method whitelist of src/httpParser.ts line 116. -/
def supportedMethods : List (List Nat) :=
  [strBytes "GET", strBytes "POST", strBytes "PUT", strBytes "DELETE",
   strBytes "PATCH", strBytes "OPTIONS", strBytes "HEAD"]

/-- Result of a successful parse: the populated parser instance fields.
`bodyIsText` records whether line 165 of src/httpParser.ts converts the
body Buffer to a UTF-8 string (the byte content is unchanged by the model). -/
structure ParsedRequest where
  method : List Nat
  path : List Nat
  httpVersion : List Nat
  headers : List (List Nat × List Nat)
  body : List Nat
  bodyIsText : Bool
  isTruncated : Bool
deriving DecidableEq, Repr

/-- Header accumulation step of the `reduce` at src/httpParser.ts lines 123-129. -/
def headerStep (acc : List (List Nat × List Nat)) (line : List Nat) :
    List (List Nat × List Nat) :=
  if (jsTrim line).isEmpty then acc
  else
    let parts := splitByte 58 line
    let key := parts.headD []
    let value := jsTrim (joinColon parts.tail)
    if key.isEmpty then acc else setKey acc (jsTrim (jsLower key)) value

/-- Header map built from the lines after the request line. -/
def headersOf (hdrLines : List (List Nat)) : List (List Nat × List Nat) :=
  hdrLines.foldl headerStep []

/-- Content-Length computation of src/httpParser.ts lines 137-138:
outer `none` = header absent or empty (falsy), `some none` = NaN. -/
def clRawOfHeaders (hs : List (List Nat × List Nat)) : Option (Option Int) :=
  match hdrGet hs (strBytes "content-length") with
  | none => none
  | some s => if s.isEmpty then none else some (jsParseInt s)

/-- Embedding of `HttpRequestParser.parse` (src/httpParser.ts lines 93-170),
Buffer input path; a `throw` becomes `Except.error`. -/
def parse (input : List Nat) : Except ParseErr ParsedRequest :=
  match findSub SEPB input with
  | none => .error .noHeaders
  | some headerIndex =>
    let headerSection := input.take headerIndex
    match splitCRLF headerSection with
    | [] => .error .noRequestLine
    | reqLine :: hdrLines =>
      match splitByte 32 reqLine with
      | [m, p, v] =>
        if supportedMethods.contains m then
          let hs := headersOf hdrLines
          if hdrGet hs (strBytes "transfer-encoding") == some (strBytes "chunked") then
            .error .chunked
          else
            let clRaw := clRawOfHeaders hs
            if clRaw == some none then .error .invalidContentLength
            else
              let contentLength : Option Int :=
                match clRaw with | some (some n) => some n | _ => none
              let bodyStart := headerIndex + 4
              let effectiveLength : Int := contentLength.getD 8192
              let body := bufSlice input (bodyStart : Int) ((bodyStart : Int) + effectiveLength)
              let isTrunc : Bool := decide ((input.length : Int) > (bodyStart : Int) + effectiveLength)
              let incomplete : Bool :=
                match contentLength with
                | some n => decide ((body.length : Int) < n)
                | none => false
              if incomplete then .error .incompleteBody
              else
                let ct := (hdrGet hs (strBytes "content-type")).getD []
                .ok { method := m, path := p, httpVersion := v, headers := hs,
                      body := body,
                      bodyIsText := (strBytes "text/").isPrefixOf ct
                        || (findSub (strBytes "json") ct).isSome,
                      isTruncated := isTrunc }
        else .error (.unsupportedMethod m)
      | _ => .error .badRequestLine

/-- Body of a successful parse, `none` when parsing throws. -/
def parseBody (input : List Nat) : Option (List Nat) :=
  match parse input with
  | .ok r => some r.body
  | .error _ => none

/-- Fixed status-message table of src/httpParser.ts lines 52-57, with the
`|| 'OK'` default of line 269. -/
def statusMessage (c : Nat) : List Nat :=
  if c = 200 then strBytes "OK"
  else if c = 400 then strBytes "Bad Request"
  else if c = 404 then strBytes "Not Found"
  else if c = 500 then strBytes "Internal Server Error"
  else strBytes "OK"

/-- One `Key: Value\r\n` header line of the response. -/
def headerLine (q : List Nat × List Nat) : List Nat :=
  q.1 ++ strBytes ": " ++ q.2 ++ [13, 10]

/-- Embedding of `HttpRequestParser.generateResponse`
(src/httpParser.ts lines 258-279); the body is given as bytes (the code
UTF-8-encodes a string body before concatenation). -/
def generateResponse (statusCode : Nat) (bodyBuf : List Nat)
    (customHeaders : List (List Nat × List Nat)) : List Nat :=
  let headers := objAssign
    [(strBytes "Content-Length", decDigits bodyBuf.length),
     (strBytes "Content-Type", strBytes "text/plain")] customHeaders
  let statusLine := strBytes "HTTP/1.1 " ++ decDigits statusCode ++ [32]
    ++ statusMessage statusCode ++ [13, 10]
  statusLine ++ (headers.map headerLine).flatten ++ [13, 10] ++ bodyBuf

/-- Outcome of one `data` event of the server's socket handler:
either keep waiting, or write a response (with the trimmed accumulator and
whether `socket.end()` is called), or write the 400 error response (which
always ends the socket). -/
inductive SessionAction where
  | waitMore
  | respond (resp : List Nat) (remaining : List Nat) (closeSock : Bool)
  | respondError (resp : List Nat)
deriving DecidableEq, Repr

/-- Whether the action ends the socket. -/
def closesSocket : SessionAction → Bool
  | .waitMore => false
  | .respond _ _ c => c
  | .respondError _ => true

/-- Headers of the catch-block 400 response (src/server.ts lines 97-100). -/
def errorHeaders : List (List Nat × List Nat) :=
  [(strBytes "Content-Type", strBytes "text/plain"),
   (strBytes "Connection", strBytes "close")]

/-- Embedding of the socket `data` handler of src/server.ts lines 24-106:
one invocation models one `data` event over the current accumulator. -/
def handleData (data : List Nat) : SessionAction :=
  match parse data with
  | .error e =>
    .respondError (generateResponse 400
      (strBytes "Bad Request: " ++ errMessage e) errorHeaders)
  | .ok parser =>
    let clS := match hdrGet parser.headers (strBytes "content-length") with
      | none => strBytes "0"
      | some s => if s.isEmpty then strBytes "0" else s
    match findSub SEPB data with
    | none => .waitMore
    | some headerIndex =>
      match jsParseInt clS with
      | none => .waitMore
      | some contentLength =>
        let expectedLength : Int := (headerIndex : Int) + 4 + contentLength
        if (data.length : Int) ≥ expectedLength then
          let statusCode : Nat := if parser.path == strBytes "/" then 200 else 404
          let responseBody : List Nat :=
            if parser.path == strBytes "/" then strBytes "Cows will fly!"
            else strBytes "Not Found"
          let keepAlive : Bool := match hdrGet parser.headers (strBytes "connection") with
            | none => false
            | some v => if v.isEmpty then false else jsLower v == strBytes "keep-alive"
          let responseHeaders : List (List Nat × List Nat) :=
            if keepAlive then
              [(strBytes "Content-Type", strBytes "text/plain"),
               (strBytes "Connection", strBytes "keep-alive"),
               (strBytes "Keep-Alive", strBytes "timeout=5, max=1000")]
            else
              [(strBytes "Content-Type", strBytes "text/plain"),
               (strBytes "Connection", strBytes "close")]
          let resp := generateResponse statusCode responseBody responseHeaders
          let remaining := bufSlice data expectedLength (data.length : Int)
          .respond resp remaining (!keepAlive || remaining.isEmpty)
        else .waitMore

/-- Trimmed accumulator left by a `respond` action, `none` otherwise. -/
def trimmedRemainder (data : List Nat) : Option (List Nat) :=
  match handleData data with
  | .respond _ remaining _ => some remaining
  | _ => none

/-- Content-Length as recomputed by the server at src/server.ts line 32,
defined only when the parse succeeds (`none` also models NaN). -/
def serverCLOf (data : List Nat) : Option Int :=
  match parse data with
  | .error _ => none
  | .ok parser =>
    jsParseInt (match hdrGet parser.headers (strBytes "content-length") with
      | none => strBytes "0"
      | some s => if s.isEmpty then strBytes "0" else s)

/-- Bytes following the first CR LF CR LF of a byte sequence. -/
def dropAfterFirstSep (xs : List Nat) : Option (List Nat) :=
  (findSub SEPB xs).map (fun i => xs.drop (i + 4))

/-- Concatenation of lines, each terminated by CR LF. -/
def hdrJoin (lines : List (List Nat)) : List Nat := (lines.map (· ++ [13, 10])).flatten

/-- Body text of one response header line (before its CR LF terminator). -/
def lineContent (q : List Nat × List Nat) : List Nat := q.1 ++ strBytes ": " ++ q.2

/-- Request line bytes `METHOD path HTTP/1.1`. -/
def mkReqLine (m p : List Nat) : List Nat :=
  m ++ [32] ++ p ++ [32] ++ strBytes "HTTP/1.1"

/-- Content-Length header line declaring `n` body bytes. -/
def mkCLLine (n : Nat) : List Nat := strBytes "Content-Length: " ++ decDigits n

/-- Wire bytes of a request whose single header declares `Content-Length: n`
and whose buffered body bytes are `b`. -/
def mkReqN (m p : List Nat) (n : Nat) (b : List Nat) : List Nat :=
  mkReqLine m p ++ [13, 10] ++ mkCLLine n ++ ([13, 10, 13, 10] ++ b)

/-- Wire bytes of a well-formed request whose Content-Length matches the body. -/
def mkReq (m p b : List Nat) : List Nat := mkReqN m p b.length b

/-- Wire bytes of a request with a single arbitrary header line and no body. -/
def mkReqH (m p line : List Nat) : List Nat :=
  mkReqLine m p ++ [13, 10] ++ line ++ ([13, 10, 13, 10] ++ [])

/-! ## Helper lemmas: byte predicates -/

/-- CR does not occur in a crlf-free byte list. -/
lemma not_cr_of_crlfFree {l : List Nat} (h : crlfFree l = true) : 13 ∉ l := by
  intro hm
  have := (List.all_eq_true.mp h) 13 hm
  simp at this

/-- LF does not occur in a crlf-free byte list. -/
lemma not_lf_of_crlfFree {l : List Nat} (h : crlfFree l = true) : 10 ∉ l := by
  intro hm
  have := (List.all_eq_true.mp h) 10 hm
  simp at this

/-- Appending crlf-free lists stays crlf-free. -/
lemma crlfFree_append {a b : List Nat} (ha : crlfFree a = true) (hb : crlfFree b = true) :
    crlfFree (a ++ b) = true := by
  simp only [crlfFree, List.all_append, Bool.and_eq_true] at *
  exact ⟨ha, hb⟩

/-! ## Helper lemmas: findSub -/

/-- findSub steps over a byte that starts no occurrence. -/
lemma findSub_cons_skip {p : List Nat} {x : Nat} {t : List Nat}
    (h : ¬ p.isPrefixOf (x :: t) = true) :
    findSub p (x :: t) = (findSub p t).map (· + 1) := by
  simp [findSub, h]

/-- findSub finds an occurrence sitting at the front. -/
lemma findSub_SEPB_self (b : List Nat) :
    findSub SEPB (13 :: 10 :: 13 :: 10 :: b) = some 0 := by
  simp [findSub, SEPB, List.isPrefixOf]

/-- findSub skips a CR-free prefix entirely. -/
lemma findSub_SEPB_append {a : List Nat} (b : List Nat) (h : 13 ∉ a) :
    findSub SEPB (a ++ b) = (findSub SEPB b).map (· + a.length) := by
  induction a with
  | nil =>
    cases hb : findSub SEPB b <;> simp [hb]
  | cons x t ih =>
    have hx : ¬ x = 13 := fun hx => h (by simp [hx])
    have hp : ¬ SEPB.isPrefixOf (x :: (t ++ b)) = true := by
      simp only [SEPB, List.isPrefixOf, Bool.and_eq_true, beq_iff_eq]
      intro hc
      exact absurd hc.1.symm hx
    rw [List.cons_append, findSub_cons_skip hp,
      ih (fun hm => h (List.mem_cons_of_mem _ hm))]
    cases hb : findSub SEPB b <;> simp [hb, Nat.add_assoc]

/-- findSub skips one CR LF pair not followed by CR. -/
lemma findSub_SEPB_crlf {x : Nat} {b : List Nat} (hx : ¬ x = 13) :
    findSub SEPB (13 :: 10 :: x :: b) = (findSub SEPB (x :: b)).map (· + 2) := by
  have h1 : ¬ SEPB.isPrefixOf (13 :: 10 :: x :: b) = true := by
    simp only [SEPB, List.isPrefixOf, Bool.and_eq_true, beq_iff_eq]
    intro hc
    exact absurd hc.2.2.1.symm hx
  have h2 : ¬ SEPB.isPrefixOf (10 :: x :: b) = true := by
    simp [SEPB, List.isPrefixOf]
  rw [findSub_cons_skip h1, findSub_cons_skip h2]
  cases hb : findSub SEPB (x :: b) <;> simp [hb, Nat.add_assoc]

/-- Position of the separator in a two-line header section followed by the
separator and a body: it sits exactly at the end of the header section. -/
lemma findSub_two_lines {l1 l2 : List Nat} (b : List Nat)
    (h1 : crlfFree l1 = true) (h2 : crlfFree l2 = true) (hne : l2 ≠ []) :
    findSub SEPB (l1 ++ [13, 10] ++ l2 ++ ([13, 10, 13, 10] ++ b)) =
      some (l1.length + 2 + l2.length) := by
  obtain ⟨y, t, rfl⟩ : ∃ y t, l2 = y :: t := by
    cases l2 with
    | nil => exact absurd rfl hne
    | cons y t => exact ⟨y, t, rfl⟩
  have hy : ¬ y = 13 := fun hy => not_cr_of_crlfFree h2 (by simp [hy])
  have hstep : (l1 ++ [13, 10] ++ (y :: t) ++ ([13, 10, 13, 10] ++ b)) =
      l1 ++ ([13, 10] ++ (y :: (t ++ ([13, 10, 13, 10] ++ b)))) := by
    simp
  rw [hstep, findSub_SEPB_append _ (not_cr_of_crlfFree h1)]
  have hmid : (13 : Nat) :: 10 :: y :: (t ++ ([13, 10, 13, 10] ++ b)) =
      [13, 10] ++ (y :: (t ++ ([13, 10, 13, 10] ++ b))) := by simp
  rw [show ([13, 10] ++ (y :: (t ++ ([13, 10, 13, 10] ++ b)))) =
      (13 : Nat) :: 10 :: y :: (t ++ ([13, 10, 13, 10] ++ b)) by simp,
    findSub_SEPB_crlf hy,
    show (y : Nat) :: (t ++ ([13, 10, 13, 10] ++ b)) =
      (y :: t) ++ ([13, 10, 13, 10] ++ b) by simp,
    findSub_SEPB_append _ (not_cr_of_crlfFree h2),
    show ([13, 10, 13, 10] ++ b) = 13 :: 10 :: 13 :: 10 :: b by simp,
    findSub_SEPB_self]
  simp [Nat.add_comm, Nat.add_assoc, Nat.add_left_comm]

/-! ## Helper lemmas: splitting -/

/-- consHead never yields an empty list of groups. -/
lemma consHead_ne_nil (x : Nat) (ls : List (List Nat)) : consHead x ls ≠ [] := by
  cases ls <;> simp [consHead]

/-- splitCRLF never yields an empty list of groups. -/
lemma splitCRLF_ne_nil (l : List Nat) : splitCRLF l ≠ [] := by
  match l with
  | [] => simp [splitCRLF]
  | [x] => simp [splitCRLF]
  | x :: y :: rest =>
    rw [splitCRLF]
    split
    · simp
    · exact consHead_ne_nil _ _

/-- splitCRLF of a crlf-free list is the single original group. -/
lemma splitCRLF_clean {l : List Nat} (h : crlfFree l = true) : splitCRLF l = [l] := by
  match l with
  | [] => simp [splitCRLF]
  | [x] => simp [splitCRLF]
  | x :: y :: rest =>
    have hx : ¬ x = 13 := fun hc => not_cr_of_crlfFree h (by simp [hc])
    have htail : crlfFree (y :: rest) = true := by
      simp only [crlfFree, List.all_cons, Bool.and_eq_true] at h ⊢
      exact h.2
    rw [splitCRLF, if_neg (fun hc => hx hc.1), splitCRLF_clean htail]
    simp [consHead]

/-- splitCRLF splits off a leading crlf-free line at its CR LF terminator. -/
lemma splitCRLF_append {a : List Nat} (b : List Nat) (h : crlfFree a = true) :
    splitCRLF (a ++ ([13, 10] ++ b)) = a :: splitCRLF b := by
  match a with
  | [] =>
    show splitCRLF (13 :: 10 :: b) = [] :: splitCRLF b
    match b with
    | [] => simp [splitCRLF]
    | z :: zs => rw [splitCRLF]; simp
  | x :: t =>
    have hx : ¬ x = 13 := fun hc => not_cr_of_crlfFree h (by simp [hc])
    have htail : crlfFree t = true := by
      simp only [crlfFree, List.all_cons, Bool.and_eq_true] at h
      exact h.2
    have hrec := splitCRLF_append (a := t) b htail
    match t with
    | [] =>
      show splitCRLF (x :: 13 :: 10 :: b) = [x] :: splitCRLF b
      have hb : splitCRLF (13 :: 10 :: b) = [] :: splitCRLF b := by simpa using hrec
      rw [splitCRLF, if_neg (fun hc => hx hc.1), hb]
      simp [consHead]
    | u :: us =>
      show splitCRLF (x :: ((u :: us) ++ ([13, 10] ++ b))) = (x :: u :: us) :: splitCRLF b
      rw [show (x :: ((u :: us) ++ ([13, 10] ++ b))) =
        x :: (u :: (us ++ ([13, 10] ++ b))) by simp]
      rw [splitCRLF, if_neg (fun hc => hx hc.1)]
      rw [show (u :: (us ++ ([13, 10] ++ b))) = (u :: us) ++ ([13, 10] ++ b) by simp, hrec]
      simp [consHead]

/-- splitByte of a separator-free list is the single original group. -/
lemma splitByte_clean {c : Nat} {l : List Nat} (h : c ∉ l) : splitByte c l = [l] := by
  induction l with
  | nil => simp [splitByte]
  | cons x t ih =>
    have hx : ¬ x = c := fun hc => h (by simp [hc])
    rw [splitByte, if_neg hx, ih (fun hm => h (List.mem_cons_of_mem _ hm))]
    simp [consHead]

/-- splitByte splits off a leading separator-free group. -/
lemma splitByte_append {c : Nat} {a : List Nat} (b : List Nat) (h : c ∉ a) :
    splitByte c (a ++ (c :: b)) = a :: splitByte c b := by
  induction a with
  | nil => simp [splitByte]
  | cons x t ih =>
    have hx : ¬ x = c := fun hc => h (by simp [hc])
    rw [List.cons_append, splitByte, if_neg hx, ih (fun hm => h (List.mem_cons_of_mem _ hm))]
    simp [consHead]

/-! ## Helper lemmas: trim and lowercase -/

/-- dropWhile keeps a list whose every element fails the predicate. -/
lemma dropWhile_of_all_false {p : Nat → Bool} {l : List Nat}
    (h : ∀ x ∈ l, p x = false) : l.dropWhile p = l := by
  cases l with
  | nil => rfl
  | cons x t => simp [List.dropWhile_cons, h x (by simp)]

/-- jsTrim keeps a list with no whitespace bytes. -/
lemma jsTrim_of_clean {l : List Nat} (h : ∀ x ∈ l, jsWS x = false) : jsTrim l = l := by
  unfold jsTrim
  rw [dropWhile_of_all_false h, dropWhile_of_all_false (by intro x hx; exact h x (by simpa using hx))]
  simp

/-- jsTrim drops a single leading space. -/
lemma jsTrim_cons_space (l : List Nat) : jsTrim (32 :: l) = jsTrim l := by
  unfold jsTrim
  rw [List.dropWhile_cons]
  simp [jsWS]

/-- dropWhile keeps at least one element when some element fails the predicate. -/
lemma dropWhile_ne_nil_of_exists {p : Nat → Bool} {l : List Nat}
    (h : ∃ x ∈ l, p x = false) : l.dropWhile p ≠ [] := by
  induction l with
  | nil => simp at h
  | cons x t ih =>
    rw [List.dropWhile_cons]
    obtain ⟨y, hy, hpy⟩ := h
    by_cases hpx : p x = true
    · rcases List.mem_cons.mp hy with rfl | hyt
      · rw [hpx] at hpy; cases hpy
      · simpa [hpx] using ih ⟨y, hyt, hpy⟩
    · simp [hpx]

/-- jsTrim of a list starting with a non-whitespace byte is nonempty. -/
lemma jsTrim_ne_nil {x : Nat} {l : List Nat} (hx : jsWS x = false) :
    jsTrim (x :: l) ≠ [] := by
  unfold jsTrim
  rw [List.dropWhile_cons, hx]
  simp only [Bool.false_eq_true, if_false]
  intro hcon
  have : ((x :: l).reverse.dropWhile jsWS) ≠ [] := by
    apply dropWhile_ne_nil_of_exists
    exact ⟨x, by simp, hx⟩
  exact this (by simpa using hcon)

/-! ## Helper lemmas: decimal digits and parseInt -/

/-- Every byte produced by decDigitsGo is an ASCII digit. -/
lemma decDigitsGo_digits : ∀ fuel m, ∀ b ∈ decDigitsGo fuel m, 48 ≤ b ∧ b ≤ 57 := by
  intro fuel
  induction fuel with
  | zero => intro m b hb; simp [decDigitsGo] at hb
  | succ f ih =>
    intro m b hb
    rw [decDigitsGo] at hb
    by_cases hm : m < 10
    · rw [if_pos hm] at hb
      simp at hb
      omega
    · rw [if_neg hm] at hb
      rcases List.mem_append.mp hb with hb | hb
      · exact ih _ _ hb
      · have hlt : m % 10 < 10 := Nat.mod_lt m (by omega)
        simp at hb
        omega

/-- decDigitsGo with positive fuel is nonempty. -/
lemma decDigitsGo_ne_nil (fuel m : Nat) : decDigitsGo (fuel + 1) m ≠ [] := by
  rw [decDigitsGo]
  split
  · simp
  · simp

/-- Folding the digit bytes after appending one digit. -/
lemma digitsToNat_append_single (a : List Nat) (x : Nat) :
    digitsToNat (a ++ [x]) = 10 * digitsToNat a + (x - 48) := by
  simp [digitsToNat, List.foldl_append]

/-- decDigitsGo renders exactly its argument when the fuel bounds it. -/
lemma decDigitsGo_val : ∀ fuel m, m < 10 ^ fuel → digitsToNat (decDigitsGo fuel m) = m := by
  intro fuel
  induction fuel with
  | zero => intro m hm; interval_cases m; simp [decDigitsGo, digitsToNat]
  | succ f ih =>
    intro m hm
    rw [decDigitsGo]
    by_cases h10 : m < 10
    · rw [if_pos h10]
      simp [digitsToNat]
    · rw [if_neg h10, digitsToNat_append_single,
        ih (m / 10) (by rw [pow_succ] at hm; omega)]
      omega

/-- Every byte of decDigits is an ASCII digit. -/
lemma decDigits_digits (n : Nat) : ∀ b ∈ decDigits n, 48 ≤ b ∧ b ≤ 57 :=
  decDigitsGo_digits (n + 1) n

/-- decDigits is never empty. -/
lemma decDigits_ne_nil (n : Nat) : decDigits n ≠ [] := decDigitsGo_ne_nil n n

/-- decDigits renders exactly its argument. -/
lemma digitsToNat_decDigits (n : Nat) : digitsToNat (decDigits n) = n := by
  refine decDigitsGo_val (n + 1) n ?_
  calc n < 10 ^ n := Nat.lt_pow_self (by omega) n
    _ ≤ 10 ^ (n + 1) := Nat.pow_le_pow_right (by omega) (by omega)

/-- Digit strings contain no CR or LF. -/
lemma crlfFree_decDigits (n : Nat) : crlfFree (decDigits n) = true := by
  simp only [crlfFree, List.all_eq_true]
  intro b hb
  have := decDigits_digits n b hb
  simp only [Bool.and_eq_true, decide_eq_true_eq]
  omega

/-- Digit bytes are not JavaScript whitespace. -/
lemma decDigits_noWS (n : Nat) : ∀ b ∈ decDigits n, jsWS b = false := by
  intro b hb
  have := decDigits_digits n b hb
  simp only [jsWS]
  simp only [Bool.or_eq_false_iff, decide_eq_false_iff_not]
  omega

/-- takeWhile keeps a list whose every element passes the predicate. -/
lemma takeWhile_of_all_true {p : Nat → Bool} {l : List Nat}
    (h : ∀ x ∈ l, p x = true) : l.takeWhile p = l := by
  induction l with
  | nil => rfl
  | cons x t ih =>
    rw [List.takeWhile_cons, h x (by simp)]
    simp [ih (fun y hy => h y (List.mem_cons_of_mem _ hy))]

/-- jsDigits reads back a rendered decimal. -/
lemma jsDigits_decDigits (n : Nat) : jsDigits (decDigits n) = some (n : Int) := by
  unfold jsDigits
  rw [takeWhile_of_all_true (fun b hb => by
    have := decDigits_digits n b hb
    simp only [isDigitB, Bool.and_eq_true, decide_eq_true_eq]
    omega)]
  rw [if_neg (by simpa [List.isEmpty_iff] using decDigits_ne_nil n)]
  rw [digitsToNat_decDigits]

/-- jsParseInt reads back a rendered decimal. -/
lemma jsParseInt_decDigits (n : Nat) : jsParseInt (decDigits n) = some (n : Int) := by
  unfold jsParseInt
  rw [dropWhile_of_all_false (decDigits_noWS n)]
  obtain ⟨d, ds, hcons⟩ := List.exists_cons_of_ne_nil (decDigits_ne_nil n)
  have hd : 48 ≤ d ∧ d ≤ 57 := decDigits_digits n d (by rw [hcons]; simp)
  rw [hcons]
  show (if d = 43 then jsDigits ds
    else if d = 45 then (jsDigits ds).map (fun k => -k)
    else jsDigits (d :: ds)) = some (n : Int)
  rw [if_neg (by omega), if_neg (by omega), ← hcons, jsDigits_decDigits]

/-! ## Helper lemmas: bufSlice -/

/-- bufSlice with nonnegative in-range-clamped indices is drop-then-take. -/
lemma bufSlice_nonneg (buf : List Nat) (s e : Nat) :
    bufSlice buf (s : Int) (e : Int) = (buf.drop s).take (e - s) := by
  simp only [bufSlice]
  rw [if_neg (by omega), if_neg (by omega)]
  have h1 : (min (s : Int) (buf.length : Int)).toNat = min s buf.length := by omega
  have h2 : (min (e : Int) (buf.length : Int) - min (s : Int) (buf.length : Int)).toNat
      = min e buf.length - min s buf.length := by omega
  rw [h1, h2]
  have hdrop : buf.drop (min s buf.length) = buf.drop s := by
    rcases Nat.le_total s buf.length with h | h
    · rw [Nat.min_eq_left h]
    · rw [Nat.min_eq_right h, List.drop_length, Eq.comm]
      exact List.drop_eq_nil_of_le h
  rw [hdrop]
  rcases Nat.le_total s buf.length with hs | hs
  · rw [Nat.min_eq_left hs]
    rcases Nat.le_total e buf.length with he | he
    · rw [Nat.min_eq_left he]
    · rw [Nat.min_eq_right he]
      have hlen : (buf.drop s).length = buf.length - s := List.length_drop s buf
      rw [List.take_of_length_le (by omega), List.take_of_length_le (by omega)]
  · have hnil : buf.drop s = [] := List.drop_eq_nil_of_le hs
    rw [hnil, List.take_nil, List.take_nil]

/-- bufSlice cutting exactly the bytes after a prefix, up to `k` of them. -/
lemma bufSlice_take (a b : List Nat) (k : Nat) :
    bufSlice (a ++ b) (a.length : Int) ((a.length : Int) + (k : Int)) = b.take k := by
  have hcast : (a.length : Int) + (k : Int) = ((a.length + k : Nat) : Int) := by push_cast; ring
  rw [hcast, bufSlice_nonneg (a ++ b) a.length (a.length + k), List.drop_left]
  congr 1
  omega

/-- bufSlice from a nonnegative start to the end is a drop. -/
lemma bufSlice_drop {buf : List Nat} {s : Int} (hs : 0 ≤ s) :
    bufSlice buf s (buf.length : Int) = buf.drop s.toNat := by
  have hcast : s = ((s.toNat : Nat) : Int) := by omega
  rw [hcast, bufSlice_nonneg buf s.toNat buf.length]
  exact List.take_of_length_le (by rw [List.length_drop])

/-- bufSlice is empty when the end does not exceed a nonnegative start. -/
lemma bufSlice_nil_of_le {buf : List Nat} {s e : Int} (hs : 0 ≤ s) (he : 0 ≤ e)
    (hle : e ≤ s) : bufSlice buf s e = [] := by
  simp only [bufSlice]
  rw [if_neg (by omega), if_neg (by omega)]
  have h0 : (min e (buf.length : Int) - min s (buf.length : Int)).toNat = 0 := by omega
  rw [h0, List.take_zero]

/-! ## Helper lemmas: response header block -/

/-- Position of the first separator in a block of nonempty crlf-free lines
followed by the blank-line terminator: it spans the last line's CR LF and
the terminator, and everything after it is the body. -/
lemma findSub_hdrBlock : ∀ (lines : List (List Nat)) (body : List Nat),
    lines ≠ [] → (∀ l ∈ lines, crlfFree l = true ∧ l ≠ []) →
    ∃ idx, findSub SEPB (hdrJoin lines ++ ([13, 10] ++ body)) = some idx ∧
      idx + 2 = (hdrJoin lines).length ∧
      (hdrJoin lines ++ ([13, 10] ++ body)).drop (idx + 4) = body := by
  intro lines
  induction lines with
  | nil => intro body hne; exact absurd rfl hne
  | cons l ls ih =>
    intro body _ hprops
    have hl : crlfFree l = true ∧ l ≠ [] := hprops l (by simp)
    cases ls with
    | nil =>
      refine ⟨l.length, ?_, by simp [hdrJoin], ?_⟩
      · have hshape : hdrJoin [l] ++ ([13, 10] ++ body) = l ++ ([13, 10, 13, 10] ++ body) := by
          simp [hdrJoin]
        rw [hshape, findSub_SEPB_append _ (not_cr_of_crlfFree hl.1),
          show ([13, 10, 13, 10] ++ body : List Nat) = 13 :: 10 :: 13 :: 10 :: body by simp,
          findSub_SEPB_self]
        simp
      · have hshape : hdrJoin [l] ++ ([13, 10] ++ body) =
            (l ++ [13, 10, 13, 10]) ++ body := by simp [hdrJoin]
        rw [hshape, show l.length + 4 = (l ++ [13, 10, 13, 10]).length by simp,
          List.drop_left]
    | cons l2 ls2 =>
      obtain ⟨idx, hfind, hlen, hdrop⟩ := ih body (by simp)
        (fun x hx => hprops x (List.mem_cons_of_mem _ hx))
      have hl2 : crlfFree l2 = true ∧ l2 ≠ [] := hprops l2 (by simp)
      obtain ⟨y, t, hyt⟩ := List.exists_cons_of_ne_nil hl2.2
      have hy : ¬ y = 13 := fun hc => not_cr_of_crlfFree hl2.1 (by rw [hyt]; simp [hc])
      have hjoin : hdrJoin (l :: l2 :: ls2) = l ++ ([13, 10] ++ hdrJoin (l2 :: ls2)) := by
        simp [hdrJoin]
      have hrest : hdrJoin (l2 :: ls2) ++ ([13, 10] ++ body) =
          y :: (t ++ ([13, 10] ++ (hdrJoin ls2 ++ ([13, 10] ++ body)))) := by
        simp [hdrJoin, hyt]
      have hrest2 : hdrJoin (l2 :: ls2) ++ ([13, 10] ++ body) ≠ [] := by
        rw [hrest]; simp
      refine ⟨l.length + 2 + idx, ?_, ?_, ?_⟩
      · have hshape : hdrJoin (l :: l2 :: ls2) ++ ([13, 10] ++ body) =
            l ++ (13 :: 10 :: (hdrJoin (l2 :: ls2) ++ ([13, 10] ++ body))) := by
          rw [hjoin]; simp
        rw [hshape, findSub_SEPB_append _ (not_cr_of_crlfFree hl.1), hrest,
          findSub_SEPB_crlf hy, ← hrest, hfind]
        simp
        omega
      · rw [hjoin]
        simp
        omega
      · have hshape : hdrJoin (l :: l2 :: ls2) ++ ([13, 10] ++ body) =
            (l ++ [13, 10]) ++ (hdrJoin (l2 :: ls2) ++ ([13, 10] ++ body)) := by
          rw [hjoin]; simp
        rw [hshape,
          show l.length + 2 + idx + 4 = (l ++ [13, 10]).length + (idx + 4) by simp; omega,
          List.drop_append, hdrop]

/-- setKey preserves a property that holds for the map and the new entry. -/
lemma setKey_preserves {P : List Nat × List Nat → Prop} {m : List (List Nat × List Nat)}
    {k v : List Nat} (hm : ∀ q ∈ m, P q) (hkv : P (k, v)) :
    ∀ q ∈ setKey m k v, P q := by
  intro q hq
  unfold setKey at hq
  split at hq
  · rcases List.mem_map.mp hq with ⟨q0, hq0, hmap⟩
    by_cases hk : q0.1 == k
    · rw [if_pos hk] at hmap; rw [← hmap]; exact hkv
    · rw [if_neg hk] at hmap; rw [← hmap]; exact hm q0 hq0
  · rcases List.mem_append.mp hq with hq | hq
    · exact hm q hq
    · rw [List.mem_singleton.mp hq]; exact hkv

/-- objAssign preserves a property holding for both maps' entries. -/
lemma objAssign_preserves {P : List Nat × List Nat → Prop}
    {base extra : List (List Nat × List Nat)}
    (hb : ∀ q ∈ base, P q) (he : ∀ q ∈ extra, P q) :
    ∀ q ∈ objAssign base extra, P q := by
  unfold objAssign
  induction extra generalizing base with
  | nil => simpa using hb
  | cons x xs ih =>
    simp only [List.foldl_cons]
    exact ih (setKey_preserves hb (he x (by simp)))
      (fun q hq => he q (List.mem_cons_of_mem _ hq))

/-- statusMessage is always a nonempty crlf-free ASCII literal. -/
lemma statusMessage_props (c : Nat) :
    crlfFree (statusMessage c) = true ∧ statusMessage c ≠ [] := by
  unfold statusMessage
  split_ifs <;> exact ⟨by decide, by decide⟩

/-- Response bytes of generateResponse decompose into the header block and body. -/
lemma generateResponse_shape (statusCode : Nat) (bodyBuf : List Nat)
    (customHeaders : List (List Nat × List Nat)) :
    generateResponse statusCode bodyBuf customHeaders =
      hdrJoin ((strBytes "HTTP/1.1 " ++ decDigits statusCode ++ [32] ++ statusMessage statusCode)
          :: (objAssign [(strBytes "Content-Length", decDigits bodyBuf.length),
                (strBytes "Content-Type", strBytes "text/plain")] customHeaders).map lineContent)
        ++ ([13, 10] ++ bodyBuf) := by
  unfold generateResponse hdrJoin
  simp only [List.map_cons, List.flatten_cons, List.map_map]
  have hline : ((· ++ ([13, 10] : List Nat)) ∘ lineContent) = headerLine := by
    funext q
    simp [lineContent, headerLine]
  rw [hline]
  simp

/-- Everything after the first separator of an encoded response is exactly
the body bytes, provided the custom header names and values are crlf-free. -/
lemma generateResponse_after_sep (statusCode : Nat) (bodyBuf : List Nat)
    (customHeaders : List (List Nat × List Nat))
    (h : ∀ q ∈ customHeaders, crlfFree q.1 = true ∧ crlfFree q.2 = true) :
    dropAfterFirstSep (generateResponse statusCode bodyBuf customHeaders) = some bodyBuf := by
  have hmerged : ∀ q ∈ objAssign [(strBytes "Content-Length", decDigits bodyBuf.length),
      (strBytes "Content-Type", strBytes "text/plain")] customHeaders,
      crlfFree q.1 = true ∧ crlfFree q.2 = true := by
    refine objAssign_preserves ?_ h
    intro q hq
    rcases List.mem_cons.mp hq with rfl | hq
    · exact ⟨show crlfFree (strBytes "Content-Length") = true by decide, crlfFree_decDigits _⟩
    · rw [List.mem_singleton.mp hq]
      exact ⟨show crlfFree (strBytes "Content-Type") = true by decide,
        show crlfFree (strBytes "text/plain") = true by decide⟩
  have hlines : ∀ l ∈ (strBytes "HTTP/1.1 " ++ decDigits statusCode ++ [32]
        ++ statusMessage statusCode)
      :: (objAssign [(strBytes "Content-Length", decDigits bodyBuf.length),
            (strBytes "Content-Type", strBytes "text/plain")] customHeaders).map lineContent,
      crlfFree l = true ∧ l ≠ [] := by
    intro l hl
    rcases List.mem_cons.mp hl with rfl | hl
    · constructor
      · refine crlfFree_append (crlfFree_append (crlfFree_append ?_ (crlfFree_decDigits _)) ?_)
          (statusMessage_props statusCode).1
        · decide
        · decide
      · simp [strBytes]
    · rcases List.mem_map.mp hl with ⟨q, hq, rfl⟩
      have hfq := hmerged q hq
      constructor
      · exact crlfFree_append (crlfFree_append hfq.1 (by decide)) hfq.2
      · simp [lineContent, strBytes]
  obtain ⟨idx, hfind, _, hdrop⟩ := findSub_hdrBlock _ bodyBuf (by simp) hlines
  unfold dropAfterFirstSep
  rw [generateResponse_shape, hfind, Option.map_some', hdrop]

/-! ## Helper lemmas: header map reads and the Content-Length line -/

/-- hdrGet misses on a singleton with a different key. -/
lemma hdrGet_singleton_ne {k k' v : List Nat} (h : (k == k') = false) :
    hdrGet [(k, v)] k' = none := by
  simp only [hdrGet, List.find?]
  rw [h]
  rfl

/-- hdrGet hits on a singleton with the matching key. -/
lemma hdrGet_singleton_eq {k v : List Nat} : hdrGet [(k, v)] k = some v := by
  simp [hdrGet, List.find?]

/-- join of a single group is that group. -/
lemma joinColon_singleton (x : List Nat) : joinColon [x] = x := by
  simp [joinColon, List.intercalate]

/-- Digit bytes never contain a colon. -/
lemma mem_decDigits_ne_58 (n : Nat) : 58 ∉ decDigits n := by
  intro hm
  have := decDigits_digits n 58 hm
  omega

/-- Basic facts about every supported method token. -/
lemma supported_facts {m : List Nat} (hm : m ∈ supportedMethods) :
    crlfFree m = true ∧ 32 ∉ m ∧ supportedMethods.contains m = true := by
  fin_cases hm <;> exact ⟨by decide, by decide, by decide⟩

/-- Splitting the Content-Length line at its colon. -/
lemma splitByte_CLLine (n : Nat) :
    splitByte 58 (mkCLLine n) = [strBytes "Content-Length", 32 :: decDigits n] := by
  have hshape : mkCLLine n = strBytes "Content-Length" ++ (58 :: (32 :: decDigits n)) := rfl
  have hnotin : (58 : Nat) ∉ 32 :: decDigits n := by
    intro hmem
    rcases List.mem_cons.mp hmem with h32 | hd
    · omega
    · exact mem_decDigits_ne_58 n hd
  rw [hshape, splitByte_append _ (by decide), splitByte_clean hnotin]

/-- The header fold turns the Content-Length line into its map entry. -/
lemma headersOf_CLLine (n : Nat) :
    headersOf [mkCLLine n] = [(strBytes "content-length", decDigits n)] := by
  have h1 : (jsTrim (mkCLLine n)).isEmpty = false := by
    have hcons : mkCLLine n = 67 :: (strBytes "ontent-Length: " ++ decDigits n) := rfl
    have hne := jsTrim_ne_nil (x := 67) (l := strBytes "ontent-Length: " ++ decDigits n)
      (by decide)
    rw [hcons]
    exact List.isEmpty_eq_false.mpr hne
  have h3 : jsTrim (32 :: decDigits n) = decDigits n := by
    rw [jsTrim_cons_space, jsTrim_of_clean (decDigits_noWS n)]
  have h4 : jsTrim (jsLower (strBytes "Content-Length")) = strBytes "content-length" := by
    decide
  simp only [headersOf, List.foldl_cons, List.foldl_nil, headerStep, h1,
    Bool.false_eq_true, if_false, splitByte_CLLine, List.headD_cons, List.tail_cons,
    joinColon_singleton, h3, h4]
  rw [if_neg (by decide)]
  simp [setKey]

/-! ## Characterisation of parse on well-formed single-header requests -/

/-- crlfFree facts for the request line built from a supported method. -/
lemma crlfFree_mkReqLine {m p : List Nat} (hmc : crlfFree m = true)
    (hpc : crlfFree p = true) : crlfFree (mkReqLine m p) = true := by
  unfold mkReqLine
  exact crlfFree_append (crlfFree_append (crlfFree_append (crlfFree_append hmc
    (by decide)) hpc) (by decide)) (by decide)

/-- The Content-Length line is crlf-free. -/
lemma crlfFree_mkCLLine (n : Nat) : crlfFree (mkCLLine n) = true :=
  crlfFree_append (by decide) (crlfFree_decDigits n)

/-- The Content-Length line is nonempty. -/
lemma mkCLLine_ne_nil (n : Nat) : mkCLLine n ≠ [] := by
  have hcons : mkCLLine n = 67 :: (strBytes "ontent-Length: " ++ decDigits n) := rfl
  rw [hcons]
  simp

/-- The separator of a well-formed single-header request sits at the end of
its header section. -/
lemma findSub_mkReqN {m p : List Nat} (n : Nat) (b : List Nat)
    (hmc : crlfFree m = true) (hpc : crlfFree p = true) :
    findSub SEPB (mkReqN m p n b) =
      some ((mkReqLine m p).length + 2 + (mkCLLine n).length) :=
  findSub_two_lines b (crlfFree_mkReqLine hmc hpc) (crlfFree_mkCLLine n) (mkCLLine_ne_nil n)

/-- Full characterisation of parse on `mkReqN`: an incomplete-body error
when fewer than the declared bytes are buffered, otherwise the populated
request whose body is the first `n` buffered body bytes. -/
lemma parse_mkReqN (m p b : List Nat) (n : Nat) (hm : m ∈ supportedMethods)
    (hp32 : 32 ∉ p) (hpc : crlfFree p = true) :
    parse (mkReqN m p n b) =
      if b.length < n then .error .incompleteBody
      else .ok { method := m, path := p, httpVersion := strBytes "HTTP/1.1",
                 headers := [(strBytes "content-length", decDigits n)],
                 body := b.take n, bodyIsText := false,
                 isTruncated := decide (n < b.length) } := by
  obtain ⟨hmc, hm32, hmcont⟩ := supported_facts hm
  have hfind := findSub_mkReqN (m := m) (p := p) n b hmc hpc
  have htake : (mkReqN m p n b).take ((mkReqLine m p).length + 2 + (mkCLLine n).length) =
      mkReqLine m p ++ ([13, 10] ++ mkCLLine n) := by
    have hshape : mkReqN m p n b =
        (mkReqLine m p ++ ([13, 10] ++ mkCLLine n)) ++ ([13, 10, 13, 10] ++ b) := by
      simp [mkReqN]
    have hlen : (mkReqLine m p).length + 2 + (mkCLLine n).length =
        (mkReqLine m p ++ ([13, 10] ++ mkCLLine n)).length := by
      simp
      omega
    rw [hshape, hlen, List.take_left]
  have hsplit : splitCRLF (mkReqLine m p ++ ([13, 10] ++ mkCLLine n)) =
      [mkReqLine m p, mkCLLine n] := by
    rw [splitCRLF_append _ (crlfFree_mkReqLine hmc hpc), splitCRLF_clean (crlfFree_mkCLLine n)]
  have hsplitB : splitByte 32 (mkReqLine m p) = [m, p, strBytes "HTTP/1.1"] := by
    have hshape : mkReqLine m p = m ++ (32 :: (p ++ (32 :: strBytes "HTTP/1.1"))) := by
      simp [mkReqLine]
    rw [hshape, splitByte_append _ hm32, splitByte_append _ hp32,
      splitByte_clean (by decide)]
  have hte : (hdrGet [(strBytes "content-length", decDigits n)]
      (strBytes "transfer-encoding") == some (strBytes "chunked")) = false := by
    rw [hdrGet_singleton_ne (by decide)]
    rfl
  have hcl : clRawOfHeaders [(strBytes "content-length", decDigits n)] =
      some (some (n : Int)) := by
    unfold clRawOfHeaders
    rw [hdrGet_singleton_eq]
    show (if (decDigits n).isEmpty = true then none
      else some (jsParseInt (decDigits n))) = some (some (n : Int))
    rw [if_neg (by simp [List.isEmpty_eq_false.mpr (decDigits_ne_nil n)]),
      jsParseInt_decDigits]
  have hct : hdrGet [(strBytes "content-length", decDigits n)] (strBytes "content-type")
      = none := hdrGet_singleton_ne (by decide)
  have hbody : bufSlice (mkReqN m p n b)
      (((mkReqLine m p).length + 2 + (mkCLLine n).length + 4 : Nat) : Int)
      ((((mkReqLine m p).length + 2 + (mkCLLine n).length + 4 : Nat) : Int) + (n : Int)) =
      b.take n := by
    have hA : ((mkReqLine m p ++ [13, 10]) ++ mkCLLine n ++ [13, 10, 13, 10]).length =
        (mkReqLine m p).length + 2 + (mkCLLine n).length + 4 := by
      simp
      omega
    have hb0 := bufSlice_take ((mkReqLine m p ++ [13, 10]) ++ mkCLLine n ++ [13, 10, 13, 10]) b n
    rw [hA] at hb0
    have hshape2 : ((mkReqLine m p ++ [13, 10]) ++ mkCLLine n ++ [13, 10, 13, 10]) ++ b =
        mkReqN m p n b := by
      simp [mkReqN]
    rw [hshape2] at hb0
    exact hb0
  have hlenI : (mkReqN m p n b).length =
      (mkReqLine m p).length + 2 + (mkCLLine n).length + 4 + b.length := by
    simp [mkReqN]
    omega
  have hclne : ((some (some ((n : Nat) : Int)) == (some none : Option (Option Int)))) = false := rfl
  have hbt : ((strBytes "text/").isPrefixOf (((none : Option (List Nat)).getD []))
      || (findSub (strBytes "json") ((none : Option (List Nat)).getD [])).isSome) = false := by
    decide
  unfold parse
  rw [hfind]
  simp only [htake, hsplit, hsplitB, hmcont, if_true, hte, Bool.false_eq_true, if_false,
    headersOf_CLLine, hcl, hclne, hct, hlenI, Option.getD_some, hbody, hbt]
  by_cases hlt : b.length < n
  · rw [if_pos hlt]
    have hinc : (decide (((b.take n).length : Int) < ((n : Nat) : Int))) = true := by
      simp only [List.length_take, decide_eq_true_eq]
      push_cast
      omega
    simp only [hinc, if_true]
  · rw [if_neg hlt]
    have hinc : (decide (((b.take n).length : Int) < ((n : Nat) : Int))) = false := by
      simp only [List.length_take, decide_eq_false_iff_not]
      push_cast
      omega
    have htrunc : (decide ((((mkReqLine m p).length + 2 + (mkCLLine n).length + 4 + b.length : Nat) : Int) >
        (((mkReqLine m p).length + 2 + (mkCLLine n).length + 4 : Nat) : Int) + ((n : Nat) : Int)))
        = decide (n < b.length) := by
      rw [decide_eq_decide]
      push_cast
      omega
    simp only [hinc, Bool.false_eq_true, if_false, htrunc]

/-- Session outcome for a complete well-formed request delivered alone: one
respond action that consumes the whole buffer (and, the connection header
being absent, closes the socket). -/
lemma handleData_mkReq (m p b : List Nat) (hm : m ∈ supportedMethods)
    (hp32 : 32 ∉ p) (hpc : crlfFree p = true) :
    ∃ resp, handleData (mkReq m p b) = .respond resp [] true := by
  obtain ⟨hmc, _, _⟩ := supported_facts hm
  have hpar := parse_mkReqN m p b b.length hm hp32 hpc
  rw [if_neg (lt_irrefl _)] at hpar
  have hfind := findSub_mkReqN (m := m) (p := p) b.length b hmc hpc
  have hlenI : (mkReqN m p b.length b).length =
      (mkReqLine m p).length + 2 + (mkCLLine b.length).length + 4 + b.length := by
    simp [mkReqN]
    omega
  have hclS : hdrGet [(strBytes "content-length", decDigits b.length)]
      (strBytes "content-length") = some (decDigits b.length) := hdrGet_singleton_eq
  have hconn : hdrGet [(strBytes "content-length", decDigits b.length)]
      (strBytes "connection") = none := hdrGet_singleton_ne (by decide)
  have hempty : (decDigits b.length).isEmpty = false :=
    List.isEmpty_eq_false.mpr (decDigits_ne_nil b.length)
  have hguard : ((mkReqN m p b.length b).length : Int) ≥
      (((mkReqLine m p).length + 2 + (mkCLLine b.length).length : Nat) : Int) + 4 +
        ((b.length : Nat) : Int) := by
    rw [hlenI]
    push_cast
    omega
  have hrem : bufSlice (mkReqN m p b.length b)
      ((((mkReqLine m p).length + 2 + (mkCLLine b.length).length : Nat) : Int) + 4 +
        ((b.length : Nat) : Int)) ((mkReqN m p b.length b).length : Int) = [] := by
    refine bufSlice_nil_of_le (by positivity) (by positivity) ?_
    rw [hlenI]
    push_cast
    omega
  refine ⟨generateResponse (if p == strBytes "/" then 200 else 404)
      (if p == strBytes "/" then strBytes "Cows will fly!" else strBytes "Not Found")
      (if (false : Bool) then
        [(strBytes "Content-Type", strBytes "text/plain"),
         (strBytes "Connection", strBytes "keep-alive"),
         (strBytes "Keep-Alive", strBytes "timeout=5, max=1000")]
       else
        [(strBytes "Content-Type", strBytes "text/plain"),
         (strBytes "Connection", strBytes "close")]), ?_⟩
  show handleData (mkReqN m p b.length b) = _
  unfold handleData
  rw [hpar]
  simp only [hclS, hempty, Bool.false_eq_true, if_false, hfind, jsParseInt_decDigits,
    hconn, if_pos hguard, hrem, List.isEmpty_nil, Bool.not_false, Bool.true_or]

/-! ## Claim theorems -/

/-- C1 (counterexample): a buffer with no CR LF CR LF separator does not
produce a wait-for-more-bytes outcome; parse throws the no-headers error and
the session answers 400 and closes the socket. -/
theorem c1_counterexample :
    parse (strBytes "GET / HTTP/1.1\r\nHost: a") = .error .noHeaders ∧
    handleData (strBytes "GET / HTTP/1.1\r\nHost: a") =
      .respondError (generateResponse 400
        (strBytes "Bad Request: " ++ errMessage .noHeaders) errorHeaders) ∧
    closesSocket (handleData (strBytes "GET / HTTP/1.1\r\nHost: a")) = true := by
  refine ⟨rfl, rfl, rfl⟩

/-- C1 (amended): for every buffer without the four-byte separator, parse
fails with the no-headers error and the session writes the 400 response and
closes; it never waits. -/
theorem c1_amended (input : List Nat) (h : findSub SEPB input = none) :
    parse input = .error .noHeaders ∧
    handleData input = .respondError (generateResponse 400
      (strBytes "Bad Request: " ++ errMessage .noHeaders) errorHeaders) ∧
    closesSocket (handleData input) = true := by
  have hp : parse input = .error .noHeaders := by
    unfold parse
    rw [h]
  have hh : handleData input = .respondError (generateResponse 400
      (strBytes "Bad Request: " ++ errMessage .noHeaders) errorHeaders) := by
    unfold handleData
    rw [hp]
  exact ⟨hp, hh, by rw [hh]; rfl⟩

/-- C1 (witness): the amended statement evaluated on a concrete
separator-free buffer. -/
theorem c1_amended_witness :
    parse (strBytes "POST /a HTTP/1.1\r\nHost: b") = .error .noHeaders ∧
    closesSocket (handleData (strBytes "POST /a HTTP/1.1\r\nHost: b")) = true := by
  have h := c1_amended (strBytes "POST /a HTTP/1.1\r\nHost: b") (by decide)
  exact ⟨h.1, h.2.2⟩

/-- C2 (counterexample): Content-Length 10 with only 5 buffered body bytes
does not yield a wait outcome; parse throws the incomplete-body error and
the session answers 400 and closes instead of retrying. -/
theorem c2_counterexample :
    parse (strBytes "POST / HTTP/1.1\r\nContent-Length: 10\r\n\r\nhello") =
      .error .incompleteBody ∧
    handleData (strBytes "POST / HTTP/1.1\r\nContent-Length: 10\r\n\r\nhello") =
      .respondError (generateResponse 400
        (strBytes "Bad Request: " ++ errMessage .incompleteBody) errorHeaders) ∧
    closesSocket (handleData (strBytes "POST / HTTP/1.1\r\nContent-Length: 10\r\n\r\nhello"))
      = true := by
  refine ⟨rfl, rfl, rfl⟩

/-- C2 (amended): when a valid Content-Length N exceeds the buffered body
bytes, decoding fails with the incomplete-body error and the session sends
400 and closes (it does not wait); a buffer holding exactly N body bytes
decodes completely with the body intact. -/
theorem c2_amended (m p b : List Nat) (n : Nat) (hm : m ∈ supportedMethods)
    (hp32 : 32 ∉ p) (hpc : crlfFree p = true) (hshort : b.length < n) :
    parse (mkReqN m p n b) = .error .incompleteBody ∧
    handleData (mkReqN m p n b) = .respondError (generateResponse 400
      (strBytes "Bad Request: " ++ errMessage .incompleteBody) errorHeaders) ∧
    closesSocket (handleData (mkReqN m p n b)) = true ∧
    (∀ b2 : List Nat, b2.length = n →
      ∃ r, parse (mkReqN m p n b2) = .ok r ∧ r.body = b2) := by
  have hp := parse_mkReqN m p b n hm hp32 hpc
  rw [if_pos hshort] at hp
  have hh : handleData (mkReqN m p n b) = .respondError (generateResponse 400
      (strBytes "Bad Request: " ++ errMessage .incompleteBody) errorHeaders) := by
    unfold handleData
    rw [hp]
  refine ⟨hp, hh, by rw [hh]; rfl, ?_⟩
  intro b2 hb2
  have hp2 := parse_mkReqN m p b2 n hm hp32 hpc
  rw [if_neg (by omega)] at hp2
  refine ⟨_, hp2, ?_⟩
  show b2.take n = b2
  rw [← hb2, List.take_length]

/-- C2 (witness): the amended statement on `Content-Length: 10` with a
5-byte body, and the complete decode once 10 bytes are present. -/
theorem c2_amended_witness :
    parse (mkReqN (strBytes "POST") (strBytes "/") 10 (strBytes "hello")) =
      .error .incompleteBody ∧
    closesSocket (handleData (mkReqN (strBytes "POST") (strBytes "/") 10 (strBytes "hello")))
      = true ∧
    (∃ r, parse (mkReqN (strBytes "POST") (strBytes "/") 10 (strBytes "helloworld")) = .ok r ∧
      r.body = strBytes "helloworld") := by
  have h := c2_amended (strBytes "POST") (strBytes "/") (strBytes "hello") 10
    (by decide) (by decide) (by decide) (by decide)
  exact ⟨h.1, h.2.2.1, h.2.2.2 (strBytes "helloworld") (by decide)⟩

/-- C3 (counterexample): for `POST / HTTP/1.1` with body `hello` and no
Content-Length, the decode completes with body `hello` (5 bytes), but the
session trims only headerSectionLength + 4 = 19 bytes, leaving the body in
the accumulator; consumption does not equal headerSectionLength + 4 +
extracted-body-length. -/
theorem c3_counterexample :
    parseBody (strBytes "POST / HTTP/1.1\r\n\r\nhello") = some (strBytes "hello") ∧
    findSub SEPB (strBytes "POST / HTTP/1.1\r\n\r\nhello") = some 15 ∧
    trimmedRemainder (strBytes "POST / HTTP/1.1\r\n\r\nhello") = some (strBytes "hello") ∧
    (strBytes "POST / HTTP/1.1\r\n\r\nhello").length - (strBytes "hello").length ≠
      15 + 4 + (strBytes "hello").length := by
  refine ⟨rfl, rfl, rfl, by decide⟩

/-- C3 (amended): whenever a data event responds, the bytes trimmed from the
accumulator equal headerSectionLength + 4 + N where N is the declared
content-length reparsed by the server (0 when the header is absent or
empty), for nonnegative N; and the remainder never exceeds the buffer. -/
theorem c3_amended (data : List Nat) (hi : Nat) (n : Int) (resp rem : List Nat) (c : Bool)
    (hfind : findSub SEPB data = some hi) (hcl : serverCLOf data = some n) (hn : 0 ≤ n)
    (hact : handleData data = .respond resp rem c) :
    data.length - rem.length = hi + 4 + n.toNat ∧ rem.length ≤ data.length := by
  cases hpd : parse data with
  | error e =>
    have hh : handleData data = .respondError (generateResponse 400
        (strBytes "Bad Request: " ++ errMessage e) errorHeaders) := by
      unfold handleData
      rw [hpd]
    rw [hh] at hact
    cases hact
  | ok parser =>
    have hcl2 : jsParseInt (match hdrGet parser.headers (strBytes "content-length") with
        | none => strBytes "0"
        | some s => if s.isEmpty then strBytes "0" else s) = some n := by
      unfold serverCLOf at hcl
      rw [hpd] at hcl
      exact hcl
    by_cases hguard : (data.length : Int) ≥ (hi : Int) + 4 + n
    · have hfwd : handleData data = .respond
          (generateResponse (if parser.path == strBytes "/" then 200 else 404)
            (if parser.path == strBytes "/" then strBytes "Cows will fly!"
             else strBytes "Not Found")
            (if (match hdrGet parser.headers (strBytes "connection") with
                 | none => false
                 | some v => if v.isEmpty then false else jsLower v == strBytes "keep-alive") then
              [(strBytes "Content-Type", strBytes "text/plain"),
               (strBytes "Connection", strBytes "keep-alive"),
               (strBytes "Keep-Alive", strBytes "timeout=5, max=1000")]
             else
              [(strBytes "Content-Type", strBytes "text/plain"),
               (strBytes "Connection", strBytes "close")]))
          (bufSlice data ((hi : Int) + 4 + n) (data.length : Int))
          (!(match hdrGet parser.headers (strBytes "connection") with
             | none => false
             | some v => if v.isEmpty then false else jsLower v == strBytes "keep-alive")
            || (bufSlice data ((hi : Int) + 4 + n) (data.length : Int)).isEmpty) := by
        unfold handleData
        simp only [hpd, hfind, hcl2]
        rw [if_pos hguard]
      rw [hfwd] at hact
      injection hact with h1 h2 h3
      have hlen : rem.length = data.length - (hi + 4 + n.toNat) := by
        rw [← h2, show ((hi : Int) + 4 + n) = (((hi + 4 + n.toNat : Nat)) : Int) by push_cast; omega,
          bufSlice_drop (by positivity), List.length_drop]
        omega
      constructor
      · omega
      · omega
    · have hfwd : handleData data = .waitMore := by
        unfold handleData
        simp only [hpd, hfind, hcl2]
        rw [if_neg hguard]
      rw [hfwd] at hact
      cases hact

/-- C3 (witness): the amended invariant evaluated on a concrete GET with no
body: 18 bytes buffered, 18 = 14 + 4 + 0 consumed, empty remainder. -/
theorem c3_amended_witness :
    (strBytes "GET / HTTP/1.1\r\n\r\n").length - ([] : List Nat).length =
      14 + 4 + (0 : Int).toNat ∧
    ([] : List Nat).length ≤ (strBytes "GET / HTTP/1.1\r\n\r\n").length :=
  c3_amended (strBytes "GET / HTTP/1.1\r\n\r\n") 14 0
    (generateResponse 200 (strBytes "Cows will fly!")
      [(strBytes "Content-Type", strBytes "text/plain"),
       (strBytes "Connection", strBytes "close")])
    [] true rfl rfl (by decide) rfl

/-- C4 (counterexample): two pipelined requests delivered in one buffer do
NOT produce two decodes in one data event; the whole event outcome is a
single respond action answering only the first request (with keep-alive and
no close), leaving the second request's bytes in the accumulator. -/
theorem c4_counterexample :
    handleData (strBytes
        "GET / HTTP/1.1\r\nConnection: keep-alive\r\n\r\nGET /x HTTP/1.1\r\nConnection: close\r\n\r\n") =
      .respond (generateResponse 200 (strBytes "Cows will fly!")
          [(strBytes "Content-Type", strBytes "text/plain"),
           (strBytes "Connection", strBytes "keep-alive"),
           (strBytes "Keep-Alive", strBytes "timeout=5, max=1000")])
        (strBytes "GET /x HTTP/1.1\r\nConnection: close\r\n\r\n") false := by
  rfl

/-- C4 (amended): one decode happens per data event.  The event carrying
both pipelined requests answers only the first (keep-alive response, socket
kept open, second request left buffered); the second request is decoded only
when a later data event runs over the remaining buffer, and then its close
response ends the socket. -/
theorem c4_amended :
    handleData (strBytes
        "GET / HTTP/1.1\r\nConnection: keep-alive\r\n\r\nGET /x HTTP/1.1\r\nConnection: close\r\n\r\n") =
      .respond (generateResponse 200 (strBytes "Cows will fly!")
          [(strBytes "Content-Type", strBytes "text/plain"),
           (strBytes "Connection", strBytes "keep-alive"),
           (strBytes "Keep-Alive", strBytes "timeout=5, max=1000")])
        (strBytes "GET /x HTTP/1.1\r\nConnection: close\r\n\r\n") false ∧
    closesSocket (handleData (strBytes
        "GET / HTTP/1.1\r\nConnection: keep-alive\r\n\r\nGET /x HTTP/1.1\r\nConnection: close\r\n\r\n"))
      = false ∧
    handleData (strBytes "GET /x HTTP/1.1\r\nConnection: close\r\n\r\n") =
      .respond (generateResponse 404 (strBytes "Not Found")
          [(strBytes "Content-Type", strBytes "text/plain"),
           (strBytes "Connection", strBytes "close")]) [] true ∧
    closesSocket (handleData (strBytes "GET /x HTTP/1.1\r\nConnection: close\r\n\r\n")) = true := by
  refine ⟨rfl, rfl, rfl, rfl⟩

/-- C5 (code evaluation): a lone keep-alive request leaves no bytes after
trimming, and the session then calls socket.end despite the keep-alive
negotiation: the respond action closes the socket instead of returning to
the awaiting-data state. -/
theorem c5_code_bug_eval :
    handleData (strBytes "GET / HTTP/1.1\r\nConnection: keep-alive\r\n\r\n") =
      .respond (generateResponse 200 (strBytes "Cows will fly!")
          [(strBytes "Content-Type", strBytes "text/plain"),
           (strBytes "Connection", strBytes "keep-alive"),
           (strBytes "Keep-Alive", strBytes "timeout=5, max=1000")]) [] true ∧
    closesSocket (handleData (strBytes "GET / HTTP/1.1\r\nConnection: keep-alive\r\n\r\n"))
      = true := by
  refine ⟨rfl, rfl⟩

/-- C6: every decode failure makes the session write exactly the 400
response whose body embeds the failure reason text, close the socket
regardless of keep-alive, and the response carries Connection close in its
merged header map; the session function is total, so no fault escapes. -/
theorem c6_invalid_yields_400_close (input : List Nat) (e : ParseErr)
    (h : parse input = .error e) :
    handleData input = .respondError (generateResponse 400
      (strBytes "Bad Request: " ++ errMessage e) errorHeaders) ∧
    closesSocket (handleData input) = true ∧
    dropAfterFirstSep (generateResponse 400
        (strBytes "Bad Request: " ++ errMessage e) errorHeaders) =
      some (strBytes "Bad Request: " ++ errMessage e) ∧
    hdrGet (objAssign [(strBytes "Content-Length",
          decDigits (strBytes "Bad Request: " ++ errMessage e).length),
        (strBytes "Content-Type", strBytes "text/plain")] errorHeaders)
      (strBytes "Connection") = some (strBytes "close") := by
  have hh : handleData input = .respondError (generateResponse 400
      (strBytes "Bad Request: " ++ errMessage e) errorHeaders) := by
    unfold handleData
    rw [h]
  refine ⟨hh, by rw [hh]; rfl, ?_, ?_⟩
  · refine generateResponse_after_sep 400 _ errorHeaders ?_
    intro q hq
    rcases List.mem_cons.mp hq with rfl | hq
    · exact ⟨show crlfFree (strBytes "Content-Type") = true by decide,
        show crlfFree (strBytes "text/plain") = true by decide⟩
    · rw [List.mem_singleton.mp hq]
      exact ⟨show crlfFree (strBytes "Connection") = true by decide,
        show crlfFree (strBytes "close") = true by decide⟩
  · have e1 : ((strBytes "Content-Length" : List Nat) == strBytes "Content-Type") = false := by
      decide
    have e2 : ((strBytes "Content-Type" : List Nat) == strBytes "Content-Type") = true := by
      decide
    have e3 : ((strBytes "Content-Length" : List Nat) == strBytes "Connection") = false := by
      decide
    have e4 : ((strBytes "Content-Type" : List Nat) == strBytes "Connection") = false := by
      decide
    have e5 : ((strBytes "Connection" : List Nat) == strBytes "Connection") = true := by
      decide
    simp [objAssign, errorHeaders, setKey, hdrGet, List.find?, e1, e2, e3, e4, e5]

/-- C6 (witness): the 400-and-close behaviour on a concrete malformed
request line. -/
theorem c6_invalid_yields_400_close_witness :
    handleData (strBytes "XYZ\r\n\r\n") = .respondError (generateResponse 400
      (strBytes "Bad Request: " ++ errMessage .badRequestLine) errorHeaders) ∧
    closesSocket (handleData (strBytes "XYZ\r\n\r\n")) = true ∧
    dropAfterFirstSep (generateResponse 400
        (strBytes "Bad Request: " ++ errMessage .badRequestLine) errorHeaders) =
      some (strBytes "Bad Request: " ++ errMessage .badRequestLine) := by
  have h := c6_invalid_yields_400_close (strBytes "XYZ\r\n\r\n") .badRequestLine rfl
  exact ⟨h.1, h.2.1, h.2.2.1⟩

/-- C7: a well-formed request whose Content-Length equals its body length
decodes completely: the extracted body is byte-for-byte the original body,
the session consumes exactly headerSectionLength + 4 + bodyLength bytes
(the remainder after trimming is empty), and the buffer length decomposes
accordingly. -/
theorem c7_complete_request_roundtrip (m p b : List Nat) (hm : m ∈ supportedMethods)
    (hp32 : 32 ∉ p) (hpc : crlfFree p = true) :
    parseBody (mkReq m p b) = some b ∧
    trimmedRemainder (mkReq m p b) = some [] ∧
    ∃ hsl, findSub SEPB (mkReq m p b) = some hsl ∧
      (mkReq m p b).length = hsl + 4 + b.length := by
  obtain ⟨hmc, _, _⟩ := supported_facts hm
  have hpar := parse_mkReqN m p b b.length hm hp32 hpc
  rw [if_neg (lt_irrefl _)] at hpar
  obtain ⟨resp, hresp⟩ := handleData_mkReq m p b hm hp32 hpc
  refine ⟨?_, ?_, (mkReqLine m p).length + 2 + (mkCLLine b.length).length,
    findSub_mkReqN b.length b hmc hpc, ?_⟩
  · unfold parseBody
    rw [show mkReq m p b = mkReqN m p b.length b from rfl, hpar]
    simp [List.take_length]
  · unfold trimmedRemainder
    rw [hresp]
  · show (mkReqN m p b.length b).length = _
    simp [mkReqN]
    omega

/-- C7 (witness): the round trip on `GET / HTTP/1.1` with body `hi` and
`Content-Length: 2`. -/
theorem c7_complete_request_roundtrip_witness :
    parseBody (mkReq (strBytes "GET") (strBytes "/") (strBytes "hi")) =
      some (strBytes "hi") ∧
    trimmedRemainder (mkReq (strBytes "GET") (strBytes "/") (strBytes "hi")) = some [] := by
  have h := c7_complete_request_roundtrip (strBytes "GET") (strBytes "/") (strBytes "hi")
    (by decide) (by decide) (by decide)
  exact ⟨h.1, h.2.1⟩

/-- C8: for every status code, body, and crlf-free custom header map, the
bytes after the first CR LF CR LF of the encoded response are exactly the
body bytes. -/
theorem c8_encode_body_roundtrip (statusCode : Nat) (bodyBuf : List Nat)
    (custom : List (List Nat × List Nat))
    (h : ∀ q ∈ custom, crlfFree q.1 = true ∧ crlfFree q.2 = true) :
    dropAfterFirstSep (generateResponse statusCode bodyBuf custom) = some bodyBuf :=
  generateResponse_after_sep statusCode bodyBuf custom h

/-- C8 (witness): the round trip on a concrete 200 response with one custom
header. -/
theorem c8_encode_body_roundtrip_witness :
    dropAfterFirstSep (generateResponse 200 (strBytes "hello")
      [(strBytes "X-Extra", strBytes "yes")]) = some (strBytes "hello") :=
  c8_encode_body_roundtrip 200 (strBytes "hello")
    [(strBytes "X-Extra", strBytes "yes")] (by decide)

/-- C9 (counterexample): `content-length: -50` on a Buffer holding 20 body
bytes parses successfully, but the resulting body is NOT empty: JavaScript
negative-index slicing keeps 9 bytes. -/
theorem c9_counterexample :
    parseBody (strBytes "GET / HTTP/1.1\r\ncontent-length: -50\r\n\r\n"
        ++ List.replicate 20 65) = some (List.replicate 9 65) ∧
    List.replicate 9 65 ≠ ([] : List Nat) := by
  refine ⟨rfl, by decide⟩

/-- C9 (amended): a content-length header parsing to a negative integer
never triggers the invalid-Content-Length error nor the incomplete-body
error; and whenever bodyStart + declaredLength is still nonnegative (in
particular whenever declaredLength is at least -(headerIndex + 4)), a
successful parse yields the empty body. -/
theorem c9_amended (input : List Nat) (hi : Nat) (n : Int)
    (hfind : findSub SEPB input = some hi)
    (hcl : clRawOfHeaders (headersOf (splitCRLF (input.take hi)).tail) = some (some n))
    (hneg : n < 0) :
    parse input ≠ .error .invalidContentLength ∧
    parse input ≠ .error .incompleteBody ∧
    (0 ≤ (hi : Int) + 4 + n → ∀ r, parse input = .ok r → r.body = []) := by
  generalize hpe : parse input = out
  unfold parse at hpe
  rw [hfind] at hpe
  split at hpe
  · next _ heq0 =>
    exact absurd heq0 (by simp)
  next _ hi2 heq0 =>
  injection heq0 with hh0
  subst hh0
  dsimp only [] at hpe
  split at hpe
  · subst hpe
    exact ⟨by simp, by simp, fun _ r hr => absurd hr (by simp)⟩
  · next reqLine hdrLines heq =>
    rw [heq] at hcl
    simp only [List.tail_cons] at hcl
    split at hpe
    · split at hpe
      · split at hpe
        · subst hpe
          exact ⟨by simp, by simp, fun _ r hr => absurd hr (by simp)⟩
        · split at hpe
          · next hcond =>
            rw [hcl] at hcond
            have hfb : ((some (some n) : Option (Option Int)) == some none) = false := rfl
            rw [hfb] at hcond
            cases hcond
          · simp only [hcl, Option.getD_some] at hpe
            have hfalse : decide (((bufSlice input (((hi + 4 : Nat)) : Int)
                ((((hi + 4 : Nat)) : Int) + n)).length : Int) < n) = false := by
              simp only [decide_eq_false_iff_not, not_lt]
              omega
            simp only [hfalse, Bool.false_eq_true, if_false] at hpe
            subst hpe
            refine ⟨by simp, by simp, ?_⟩
            intro h0 r hr
            obtain rfl := Except.ok.inj hr
            show bufSlice input (((hi + 4 : Nat)) : Int) ((((hi + 4 : Nat)) : Int) + n) = []
            refine bufSlice_nil_of_le (by positivity) (by push_cast; omega) (by omega)
      · subst hpe
        exact ⟨by simp, by simp, fun _ r hr => absurd hr (by simp)⟩
    · subst hpe
      exact ⟨by simp, by simp, fun _ r hr => absurd hr (by simp)⟩

/-- C9 (witness): the amended statement on `content-length: -2`, where
bodyStart + (-2) is nonnegative and the parsed body is empty. -/
theorem c9_amended_witness :
    parse (strBytes "GET / HTTP/1.1\r\ncontent-length: -2\r\n\r\nxyz") ≠
      .error .invalidContentLength ∧
    parseBody (strBytes "GET / HTTP/1.1\r\ncontent-length: -2\r\n\r\nxyz") = some [] := by
  have h := c9_amended (strBytes "GET / HTTP/1.1\r\ncontent-length: -2\r\n\r\nxyz") 34 (-2)
    rfl rfl (by decide)
  exact ⟨h.1, by rfl⟩

/-- hdrGet on a singleton map, fully general in the key compared. -/
lemma hdrGet_singleton (k v k' : List Nat) :
    hdrGet [(k, v)] k' = if (k == k') = true then some v else none := by
  cases hkk : (k == k') <;> simp [hdrGet, List.find?, hkk]

/-- C10: a non-blank header line with no colon never fails parsing: the
header fold stores the whole line, lowercased and trimmed, as a name mapped
to the empty value, and a request carrying such a line parses successfully
with that entry retrievable from the header map. -/
theorem c10_colonless_header_line (m p line : List Nat) (hm : m ∈ supportedMethods)
    (hp32 : 32 ∉ p) (hpc : crlfFree p = true)
    (hl58 : 58 ∉ line) (hlc : crlfFree line = true) (hlnb : jsTrim line ≠ []) :
    (∀ acc, headerStep acc line = setKey acc (jsTrim (jsLower line)) []) ∧
    ∃ r, parse (mkReqH m p line) = .ok r ∧
      hdrGet r.headers (jsTrim (jsLower line)) = some [] := by
  obtain ⟨hmc, hm32, hmcont⟩ := supported_facts hm
  have hlne : line ≠ [] := fun hc => hlnb (by rw [hc]; rfl)
  have hstep : ∀ acc, headerStep acc line = setKey acc (jsTrim (jsLower line)) [] := by
    intro acc
    simp only [headerStep]
    rw [if_neg (by rw [List.isEmpty_iff]; exact hlnb), splitByte_clean hl58]
    simp only [List.headD_cons, List.tail_cons]
    rw [if_neg (by rw [List.isEmpty_iff]; exact hlne)]
    simp [joinColon, List.intercalate, jsTrim]
  refine ⟨hstep, ?_⟩
  have hhdr : headersOf [line] = [(jsTrim (jsLower line), [])] := by
    simp only [headersOf, List.foldl_cons, List.foldl_nil, hstep]
    simp [setKey]
  have hfind : findSub SEPB (mkReqH m p line) =
      some ((mkReqLine m p).length + 2 + line.length) :=
    findSub_two_lines [] (crlfFree_mkReqLine hmc hpc) hlc hlne
  have htake : (mkReqH m p line).take ((mkReqLine m p).length + 2 + line.length) =
      mkReqLine m p ++ ([13, 10] ++ line) := by
    have hshape : mkReqH m p line =
        (mkReqLine m p ++ ([13, 10] ++ line)) ++ ([13, 10, 13, 10] ++ []) := by
      simp [mkReqH]
    have hlen : (mkReqLine m p).length + 2 + line.length =
        (mkReqLine m p ++ ([13, 10] ++ line)).length := by
      simp
      omega
    rw [hshape, hlen, List.take_left]
  have hsplit : splitCRLF (mkReqLine m p ++ ([13, 10] ++ line)) = [mkReqLine m p, line] := by
    rw [splitCRLF_append _ (crlfFree_mkReqLine hmc hpc), splitCRLF_clean hlc]
  have hsplitB : splitByte 32 (mkReqLine m p) = [m, p, strBytes "HTTP/1.1"] := by
    have hshape : mkReqLine m p = m ++ (32 :: (p ++ (32 :: strBytes "HTTP/1.1"))) := by
      simp [mkReqLine]
    rw [hshape, splitByte_append _ hm32, splitByte_append _ hp32,
      splitByte_clean (by decide)]
  have hte : (hdrGet [(jsTrim (jsLower line), [])] (strBytes "transfer-encoding")
      == some (strBytes "chunked")) = false := by
    rw [hdrGet_singleton]
    by_cases hK : ((jsTrim (jsLower line)) == strBytes "transfer-encoding") = true
    · rw [if_pos hK]
      rfl
    · rw [if_neg hK]
      rfl
  have hclr : clRawOfHeaders [(jsTrim (jsLower line), [])] = none := by
    unfold clRawOfHeaders
    rw [hdrGet_singleton]
    by_cases hK : ((jsTrim (jsLower line)) == strBytes "content-length") = true
    · rw [if_pos hK]
      rfl
    · rw [if_neg hK]
  have hclne : ((none : Option (Option Int)) == some none) = false := rfl
  have hlenH : (mkReqH m p line).length = (mkReqLine m p).length + 2 + line.length + 4 := by
    simp [mkReqH]
    omega
  have hbody : bufSlice (mkReqH m p line)
      (((mkReqLine m p).length + 2 + line.length + 4 : Nat) : Int)
      ((((mkReqLine m p).length + 2 + line.length + 4 : Nat) : Int) + 8192) = [] := by
    have hcast : ((((mkReqLine m p).length + 2 + line.length + 4 : Nat)) : Int) + 8192 =
        (((mkReqLine m p).length + 2 + line.length + 4 + 8192 : Nat) : Int) := by
      push_cast
      ring
    rw [hcast, bufSlice_nonneg, List.drop_eq_nil_of_le (by omega), List.take_nil]
  have hct2 : ((hdrGet [(jsTrim (jsLower line), [])] (strBytes "content-type")).getD []) =
      [] := by
    rw [hdrGet_singleton]
    by_cases hK : ((jsTrim (jsLower line)) == strBytes "content-type") = true
    · rw [if_pos hK]
      rfl
    · rw [if_neg hK]
      rfl
  have hbt : ((strBytes "text/").isPrefixOf ([] : List Nat)
      || (findSub (strBytes "json") ([] : List Nat)).isSome) = false := by decide
  have htr : decide (((mkReqH m p line).length : Int) >
      ((((mkReqLine m p).length + 2 + line.length + 4 : Nat)) : Int) + 8192) = false := by
    rw [decide_eq_false_iff_not, not_lt, hlenH]
    push_cast
    omega
  refine ⟨⟨m, p, strBytes "HTTP/1.1", [(jsTrim (jsLower line), [])], [], false, false⟩,
    ?_, ?_⟩
  · unfold parse
    rw [hfind]
    simp only [htake, hsplit, hsplitB, hmcont, if_true, hhdr, hte, Bool.false_eq_true,
      if_false, hclr, hclne, Option.getD_none, hbody, hct2, hbt, htr]
  · show hdrGet [(jsTrim (jsLower line), [])] (jsTrim (jsLower line)) = some []
    rw [hdrGet_singleton, if_pos (beq_self_eq_true _)]

/-- C10 (witness): the colon-less line `X-Custom` stored as `x-custom` with
an empty value on a concrete request. -/
theorem c10_colonless_header_line_witness :
    headerStep [] (strBytes "X-Custom") =
      setKey [] (jsTrim (jsLower (strBytes "X-Custom"))) [] ∧
    ∃ r, parse (mkReqH (strBytes "GET") (strBytes "/a") (strBytes "X-Custom")) = .ok r ∧
      hdrGet r.headers (jsTrim (jsLower (strBytes "X-Custom"))) = some [] := by
  have h := c10_colonless_header_line (strBytes "GET") (strBytes "/a") (strBytes "X-Custom")
    (by decide) (by decide) (by decide) (by decide) (by decide) (by decide)
  exact ⟨h.1 [], h.2⟩
